import Mathlib

/-!
Verification of the `op_emit` request orchestrator
(`cli/ops/runtime_compiler.rs`).

The orchestrator is embedded as a pure function from a request and an
environment of external collaborators (file fetcher, import-map parser,
graph builder behaviour, ambient permissions) to a result together with a
trace of observable events (handler construction, external fetches,
permission checks, graph-builder invocations).  The collaborators
themselves (`FetchHandler`, `MemoryHandler`, `ImportMap::from_json`,
`GraphBuilder`, `file_fetcher`, `check_unstable2`) are not part of the
source under verification; they are modelled from the specification at
their interface boundary.
-/

namespace RuntimeCompiler

/-- Mirrors `RuntimeBundleType` (serde: "module" / "classic"). -/
inductive RuntimeBundleType
  | module
  | classic
deriving DecidableEq, Repr

/-- Mirrors `BundleType` of `module_graph` as consumed here: the three
emission modes the builder accepts. -/
inductive BundleType
  | module
  | classic
  | none
deriving DecidableEq, Repr

/-- Mirrors the `EmitArgs` struct deserialized from the request.  JSON
values (`Value`) are carried as their serialized text, which is all
`op_emit` ever uses of them (`value.to_string()`); hash maps are carried
as association lists. -/
structure EmitArgs where
  bundle : Option RuntimeBundleType
  check : Option Bool
  compilerOptions : Option (List (String × String))
  importMap : Option String
  importMapPath : Option String
  rootSpecifier : String
  sources : Option (List (String × String))
deriving DecidableEq, Repr

/-- Modelled from the spec: a parsed import map is identified by its base
specifier (the specifier identity used for relative resolution inside the
map) and its JSON text. -/
structure ImportMap where
  base : String
  json : String
deriving DecidableEq, Repr

/-- Permission sets are modelled as the list of specifiers the set allows
to be fetched. -/
abbrev Perms := List String

/-- Modelled from the spec: the specifier handler is a closed, tagged
variant — either the in-memory provider seeded with the caller-supplied
sources, or the permissioned fetch provider carrying two permission
grants (static-import slot and dynamic-import slot). -/
inductive Handler
  | memory (sources : List (String × String))
  | fetch (staticPerms dynPerms : Perms)
deriving DecidableEq, Repr

/-- Observable events of one orchestrator run, in order of occurrence. -/
inductive Ev
  | handlerMemory (sources : List (String × String))
  | handlerFetchNew (staticPerms dynPerms : Perms)
  | memoryLookup (s : String)
  | permCheck (allowed : Perms) (s : String)
  | fetchExternal (s : String)
  | parseImportMap (base json : String)
  | builderNew (im : Option ImportMap)
  | addRoot (s : String) (dynamic : Bool)
  | emitCall (bt : BundleType) (check debug : Bool)
deriving DecidableEq, Repr

/-- Error kinds produced by the orchestrator: the unstable-feature gate,
argument deserialization failure, `generic_error` messages, `type_error`
messages, and errors propagated unchanged from collaborators. -/
inductive EmitError
  | featureDisabled (api : String)
  | deserialize (msg : String)
  | generic (msg : String)
  | typeError (msg : String)
  | other (msg : String)
deriving DecidableEq, Repr

/-- Mirrors `EmitOptions` as constructed by `op_emit`. -/
structure EmitOptions where
  bundleType : BundleType
  check : Bool
  debug : Bool
  maybeUserConfig : Option (List (String × String))
deriving DecidableEq, Repr

/-- The emission-stage result info: ordered diagnostics, ignored options,
stats. -/
structure ResultInfo where
  diagnostics : List String
  maybeIgnoredOptions : Option (List String)
  stats : List (String × Nat)
deriving DecidableEq, Repr

/-- The structured value returned to the caller on success. -/
structure EmitResponse where
  diagnostics : List String
  files : List (String × String)
  ignoredOptions : Option (List String)
  stats : List (String × Nat)
deriving DecidableEq, Repr

/-- Modelled from the spec: the behaviour of every external collaborator
`op_emit` consults — ambient permissions and program state, fetch-handler
construction, URL resolution, the file fetcher used for import maps, the
import-map parser, dependency discovery, module fetching, compiler-option
analysis, graph errors, and the emission engine. -/
structure Env where
  ambientPerms : Perms
  fetchHandlerNew : Except String Unit
  resolveUrl : String → Except String String
  fileFetch : String → Except String String
  parseOk : String → String → Bool
  parseErrMsg : String → String → String
  deps : String → List String
  moduleFetch : String → Except String String
  analyzeResult : Option (List (String × String)) → Except String Unit
  graphErrors : List String
  emitResult : EmitOptions → Except String (List (String × String) × ResultInfo)
  logDebug : Bool

/-- Association-list lookup, standing in for `HashMap::get`. -/
def alookup (m : List (String × String)) (k : String) : Option String :=
  match m with
  | [] => Option.none
  | (k', v) :: rest => if k' = k then some v else alookup rest k

/-- Lines 69–78: select the specifier handler.  Sources present ⇒ memory
handler seeded with exactly those entries; otherwise the permissioned
fetch handler built from two clones of the ambient runtime permissions
(`FetchHandler::new` is fallible). -/
def selectHandler (env : Env) (runtimePermissions : Perms)
    (sources : Option (List (String × String))) :
    Except EmitError Handler × List Ev :=
  match sources with
  | some srcs => (.ok (.memory srcs), [Ev.handlerMemory srcs])
  | Option.none =>
      match env.fetchHandlerNew with
      | .ok _ => (.ok (.fetch runtimePermissions runtimePermissions),
          [Ev.handlerFetchNew runtimePermissions runtimePermissions])
      | .error e => (.error (.other e), [])

/-- Modelled from the spec: `ImportMap::from_json` parses JSON text
against a base specifier; success and the failure message are dictated by
the environment. -/
def importMapFromJson (env : Env) (base json : String) :
    Except EmitError ImportMap :=
  if env.parseOk base json then .ok ⟨base, json⟩
  else .error (.other (env.parseErrMsg base json))

/-- Lines 79–102: resolve the optional import map.  Path present, value
present ⇒ parse the inline value with the resolved path as base, no
fetch.  Path present, value absent ⇒ fetch through the file fetcher,
wrapping a fetch failure in the "Unable to load ... import map" message,
then parse the fetched text.  Path absent, value present ⇒ the fixed
configuration error.  Neither ⇒ no import map. -/
def resolveImportMapStage (env : Env) (importMapPath importMap : Option String) :
    Except EmitError (Option ImportMap) × List Ev :=
  match importMapPath with
  | some p =>
      match env.resolveUrl p with
      | .error _ =>
          (.error (.generic ("Bad URL (\"" ++ p ++ "\") for import map.")), [])
      | .ok spec =>
          match importMap with
          | some v =>
              match importMapFromJson env spec v with
              | .ok im => (.ok (some im), [Ev.parseImportMap spec v])
              | .error e => (.error e, [Ev.parseImportMap spec v])
          | Option.none =>
              match env.fileFetch spec with
              | .error e =>
                  (.error (.generic ("Unable to load \x27" ++ spec ++
                      "\x27 import map: " ++ e)), [Ev.fetchExternal spec])
              | .ok text =>
                  match importMapFromJson env spec text with
                  | .ok im =>
                      (.ok (some im),
                        [Ev.fetchExternal spec, Ev.parseImportMap spec text])
                  | .error e =>
                      (.error e,
                        [Ev.fetchExternal spec, Ev.parseImportMap spec text])
  | Option.none =>
      match importMap with
      | some _ =>
          (.error (.generic "An importMap was specified, but no importMapPath was provided, which is required."), [])
      | Option.none => (.ok Option.none, [])

/-- Modelled from the spec: one handler fetch.  The memory handler serves
exactly its seeded entries and turns a miss into an error, never a fetch;
the fetch handler checks the permission slot selected by the dynamic flag
and, when allowed, fetches externally. -/
def handlerFetchOne (env : Env) (h : Handler) (s : String) (isDynamic : Bool) :
    Except String String × List Ev :=
  match h with
  | .memory srcs =>
      match alookup srcs s with
      | some content => (.ok content, [Ev.memoryLookup s])
      | Option.none =>
          (.error ("Unable to find specifier in sources: " ++ s),
            [Ev.memoryLookup s])
  | .fetch staticPerms dynPerms =>
      let perms := if isDynamic then dynPerms else staticPerms
      if s ∈ perms then
        (env.moduleFetch s, [Ev.permCheck perms s, Ev.fetchExternal s])
      else (.error ("PermissionDenied: " ++ s), [Ev.permCheck perms s])

/-- Modelled from the spec: the builder resolves a list of specifiers
through the handler sequentially, failing fast. -/
def fetchList (env : Env) (h : Handler) :
    List (String × Bool) → Except String Unit × List Ev
  | [] => (.ok (), [])
  | (s, d) :: rest =>
      match handlerFetchOne env h s d with
      | (.error e, ev) => (.error e, ev)
      | (.ok _, ev) =>
          match fetchList env h rest with
          | (r, ev2) => (r, ev ++ ev2)

/-- Modelled from the spec: `GraphBuilder::add` fetches the root with the
given dynamic flag, then every discovered dependency as a static
import. -/
def builderAdd (env : Env) (h : Handler) (root : String) (dynamic : Bool) :
    Except String Unit × List Ev :=
  match fetchList env h ((root, dynamic) :: (env.deps root).map (fun d => (d, false))) with
  | (r, ev) => (r, Ev.addRoot root dynamic :: ev)

/-- Lines 114–118: the request's bundle field mapped onto the builder's
bundle enumeration. -/
def bundleTypeOf : Option RuntimeBundleType → BundleType
  | some RuntimeBundleType.module => BundleType.module
  | some RuntimeBundleType.classic => BundleType.classic
  | Option.none => BundleType.none

/-- Lines 104–135: the pipeline from root resolution onward — add the
root (normalizing any failure into the uniform "Unable to handle the
given specifier" type error), analyze compiler options, map the bundle
type, collect graph errors, emit, and append the graph errors after the
emission diagnostics. -/
def afterBuilder (env : Env) (args : EmitArgs) (h : Handler) :
    Except EmitError EmitResponse × List Ev :=
  match env.resolveUrl args.rootSpecifier with
  | .error e => (.error (.other e), [])
  | .ok root =>
      match builderAdd env h root false with
      | (.error _, ev4) =>
          (.error (.typeError ("Unable to handle the given specifier: " ++ root)),
            ev4)
      | (.ok _, ev4) =>
          match env.analyzeResult args.compilerOptions with
          | .error e => (.error (.other e), ev4)
          | .ok _ =>
              let bt := bundleTypeOf args.bundle
              let opts : EmitOptions :=
                ⟨bt, args.check.getD true, env.logDebug, args.compilerOptions⟩
              let graphErrors := env.graphErrors
              match env.emitResult opts with
              | .error e =>
                  (.error (.other e), ev4 ++ [Ev.emitCall bt opts.check opts.debug])
              | .ok (files, info) =>
                  (.ok ⟨info.diagnostics ++ graphErrors, files,
                      info.maybeIgnoredOptions, info.stats⟩,
                    ev4 ++ [Ev.emitCall bt opts.check opts.debug])

/-- Lines 60–135: the body of `op_emit` after deserialization succeeded:
select the handler, resolve the import map, construct the graph builder,
and run the remaining pipeline. -/
def opEmitArgs (env : Env) (args : EmitArgs) :
    Except EmitError EmitResponse × List Ev :=
  match selectHandler env env.ambientPerms args.sources with
  | (.error e, ev1) => (.error e, ev1)
  | (.ok h, ev1) =>
      match resolveImportMapStage env args.importMapPath args.importMap with
      | (.error e, ev2) => (.error e, ev1 ++ ev2)
      | (.ok maybeImportMap, ev2) =>
          match afterBuilder env args h with
          | (r, ev4) => (r, ev1 ++ ev2 ++ [Ev.builderNew maybeImportMap] ++ ev4)

/-- Lines 53–135: `op_emit`.  The unstable-feature gate is checked first,
before argument deserialization; the deserialization outcome is the
`rawArgs` parameter. -/
def opEmit (unstable : Bool) (env : Env) (rawArgs : Except String EmitArgs) :
    Except EmitError EmitResponse × List Ev :=
  if unstable then
    match rawArgs with
    | .error e => (.error (.deserialize e), [])
    | .ok args => opEmitArgs env args
  else (.error (.featureDisabled "Deno.emit"), [])

/-- Recognizes the graph-builder construction event. -/
def Ev.isBuilderNew : Ev → Bool
  | Ev.builderNew _ => true
  | _ => false

/-- Recognizes an external (network/filesystem) fetch event. -/
def Ev.isExternal : Ev → Bool
  | Ev.fetchExternal _ => true
  | _ => false

/-- A well-behaved environment used to evaluate the theorems on concrete
inputs: URL resolution is the identity, all collaborators succeed, the
ambient permission set allows exactly `file:///a.ts`, the emission stage
returns one diagnostic and the graph one error. -/
def testEnv : Env where
  ambientPerms := ["file:///a.ts"]
  fetchHandlerNew := .ok ()
  resolveUrl := fun s => .ok s
  fileFetch := fun _ => .ok "fetchedmapjson"
  parseOk := fun _ _ => true
  parseErrMsg := fun _ _ => "import map parse failure"
  deps := fun _ => []
  moduleFetch := fun s => .ok ("module source of " ++ s)
  analyzeResult := fun _ => .ok ()
  graphErrors := ["graphErr"]
  emitResult := fun _ =>
    .ok ([("file:///a.ts.js", "emitted")],
      ⟨["emitDiag"], Option.none, [("totalTime", 1)]⟩)
  logDebug := false

/-- The environment with only the import-map file fetcher replaced:
used to state that the operation never consults the file fetcher on a
given path. -/
def withFileFetch (env : Env) (f : String → Except String String) : Env :=
  { env with fileFetch := f }

/-- A minimal request: root `file:///a.ts`, everything else absent. -/
def testArgs : EmitArgs where
  bundle := Option.none
  check := Option.none
  compilerOptions := Option.none
  importMap := Option.none
  importMapPath := Option.none
  rootSpecifier := "file:///a.ts"
  sources := Option.none

/-- The import-map resolution stage never performs a permission check. -/
theorem resolveImportMapStage_no_permCheck (env : Env)
    (po vo : Option String) (ps : Perms) (s : String) :
    Ev.permCheck ps s ∉ (resolveImportMapStage env po vo).2 := by
  cases po with
  | none =>
      cases vo <;> simp [resolveImportMapStage]
  | some p =>
      cases hr : env.resolveUrl p with
      | error e => simp [resolveImportMapStage, hr]
      | ok spec =>
          cases vo with
          | some v =>
              cases him : importMapFromJson env spec v <;>
                simp [resolveImportMapStage, hr, him]
          | none =>
              cases hf : env.fileFetch spec with
              | error e => simp [resolveImportMapStage, hr, hf]
              | ok text =>
                  cases him : importMapFromJson env spec text <;>
                    simp [resolveImportMapStage, hr, hf, him]

/-- Any external fetch performed by the import-map resolution stage is
the fetch of the import map itself: it happens only when a path was given
with no inline value, and its target is the resolved path. -/
theorem resolveImportMapStage_fetchExternal (env : Env)
    (po vo : Option String) (s : String)
    (h : Ev.fetchExternal s ∈ (resolveImportMapStage env po vo).2) :
    ∃ p, po = some p ∧ vo = Option.none ∧ env.resolveUrl p = .ok s := by
  cases po with
  | none =>
      cases vo <;> simp [resolveImportMapStage] at h
  | some p =>
      cases hr : env.resolveUrl p with
      | error e => simp [resolveImportMapStage, hr] at h
      | ok spec =>
          cases vo with
          | some v =>
              cases him : importMapFromJson env spec v <;>
                simp [resolveImportMapStage, hr, him] at h
          | none =>
              refine ⟨p, rfl, rfl, ?_⟩
              cases hf : env.fileFetch spec with
              | error e =>
                  simp [resolveImportMapStage, hr, hf] at h
                  simp [h, hr]
              | ok text =>
                  cases him : importMapFromJson env spec text <;>
                    simp [resolveImportMapStage, hr, hf, him] at h <;>
                      simp [h, hr]

/-- Every event emitted by the import-map resolution stage is either a
parse event or an external fetch. -/
theorem resolveImportMapStage_events (env : Env)
    (po vo : Option String) (e : Ev)
    (h : e ∈ (resolveImportMapStage env po vo).2) :
    (∃ b j, e = Ev.parseImportMap b j) ∨ (∃ s, e = Ev.fetchExternal s) := by
  cases po with
  | none =>
      cases vo <;> simp [resolveImportMapStage] at h
  | some p =>
      cases hr : env.resolveUrl p with
      | error _ => simp [resolveImportMapStage, hr] at h
      | ok spec =>
          cases vo with
          | some v =>
              cases him : importMapFromJson env spec v <;>
                simp [resolveImportMapStage, hr, him] at h <;>
                  exact Or.inl ⟨spec, v, h⟩
          | none =>
              cases hf : env.fileFetch spec with
              | error _ =>
                  simp [resolveImportMapStage, hr, hf] at h
                  exact Or.inr ⟨spec, h⟩
              | ok text =>
                  cases him : importMapFromJson env spec text <;>
                    simp [resolveImportMapStage, hr, hf, him] at h <;>
                      rcases h with h | h
                  · exact Or.inr ⟨spec, h⟩
                  · exact Or.inl ⟨spec, text, h⟩
                  · exact Or.inr ⟨spec, h⟩
                  · exact Or.inl ⟨spec, text, h⟩

/-- `builderAdd` unfolded: the add-root event followed by the handler
fetch sequence for the root and its dependencies. -/
theorem builderAdd_eq (env : Env) (h : Handler) (root : String) (d : Bool) :
    builderAdd env h root d =
      ((fetchList env h ((root, d) :: (env.deps root).map (fun x => (x, false)))).1,
        Ev.addRoot root d ::
          (fetchList env h ((root, d) :: (env.deps root).map (fun x => (x, false)))).2) :=
  rfl

/-- Every event of a memory-handler fetch sequence is a memory lookup. -/
theorem fetchList_memory_events (env : Env)
    (srcs : List (String × String)) (l : List (String × Bool)) (e : Ev)
    (h : e ∈ (fetchList env (.memory srcs) l).2) : ∃ s, e = Ev.memoryLookup s := by
  induction l with
  | nil => simp [fetchList] at h
  | cons hd tl ih =>
      obtain ⟨s, d⟩ := hd
      cases hl : alookup srcs s with
      | some content =>
          rw [show fetchList env (.memory srcs) ((s, d) :: tl) =
              (match fetchList env (.memory srcs) tl with
               | (r, ev2) => (r, [Ev.memoryLookup s] ++ ev2)) from by
            simp [fetchList, handlerFetchOne, hl]] at h
          rcases hrec : fetchList env (.memory srcs) tl with ⟨r, ev2⟩
          rw [hrec] at h
          simp at h
          rcases h with h | h
          · exact ⟨s, h⟩
          · exact ih (by rw [hrec]; exact h)
      | none =>
          simp [fetchList, handlerFetchOne, hl] at h
          exact ⟨s, h⟩

/-- With the memory handler, every event of the pipeline from root
resolution onward is a memory lookup, an add-root event, or the emission
call — in particular, never an external fetch or a permission check. -/
theorem afterBuilder_memory_events (env : Env) (args : EmitArgs)
    (srcs : List (String × String)) (e : Ev)
    (h : e ∈ (afterBuilder env args (.memory srcs)).2) :
    (∃ s, e = Ev.memoryLookup s) ∨ (∃ s d, e = Ev.addRoot s d) ∨
      (∃ bt c dg, e = Ev.emitCall bt c dg) := by
  unfold afterBuilder at h
  cases hr : env.resolveUrl args.rootSpecifier with
  | error _ => rw [hr] at h; simp at h
  | ok root =>
      simp only [hr] at h
      rw [builderAdd_eq] at h
      have hfl : ∀ e', e' ∈ (fetchList env (.memory srcs)
          ((root, false) :: (env.deps root).map (fun x => (x, false)))).2 →
          ∃ s, e' = Ev.memoryLookup s :=
        fun e' he' => fetchList_memory_events env srcs _ e' he'
      cases hres : (fetchList env (.memory srcs)
          ((root, false) :: (env.deps root).map (fun x => (x, false)))).1 with
      | error _ =>
          rw [hres] at h
          simp at h
          rcases h with h | h
          · exact Or.inr (Or.inl ⟨root, false, h⟩)
          · exact Or.inl (hfl e h)
      | ok _ =>
          rw [hres] at h
          cases han : env.analyzeResult args.compilerOptions with
          | error _ =>
              rw [han] at h
              simp at h
              rcases h with h | h
              · exact Or.inr (Or.inl ⟨root, false, h⟩)
              · exact Or.inl (hfl e h)
          | ok _ =>
              rw [han] at h
              cases hem : env.emitResult ⟨bundleTypeOf args.bundle,
                  args.check.getD true, env.logDebug, args.compilerOptions⟩ with
              | error _ =>
                  rw [hem] at h
                  simp at h
                  rcases h with h | h | h
                  · exact Or.inr (Or.inl ⟨root, false, h⟩)
                  · exact Or.inl (hfl e h)
                  · exact Or.inr (Or.inr ⟨_, _, _, h⟩)
              | ok fi =>
                  rw [hem] at h
                  simp at h
                  rcases h with h | h | h
                  · exact Or.inr (Or.inl ⟨root, false, h⟩)
                  · exact Or.inl (hfl e h)
                  · exact Or.inr (Or.inr ⟨_, _, _, h⟩)

/-- Once the root specifier resolves, the trace from that point on always
records the root being added to the graph builder with the dynamic flag
set to false. -/
theorem afterBuilder_addRoot (env : Env) (args : EmitArgs) (h : Handler)
    (root : String) (hr : env.resolveUrl args.rootSpecifier = .ok root) :
    Ev.addRoot root false ∈ (afterBuilder env args h).2 := by
  unfold afterBuilder
  simp only [hr]
  rw [builderAdd_eq]
  cases hres : (fetchList env h
      ((root, false) :: (env.deps root).map (fun x => (x, false)))).1 with
  | error _ => simp
  | ok _ =>
      cases han : env.analyzeResult args.compilerOptions with
      | error _ => simp
      | ok _ =>
          cases hem : env.emitResult ⟨bundleTypeOf args.bundle,
              args.check.getD true, env.logDebug, args.compilerOptions⟩ with
          | error _ => simp
          | ok fi => simp

/-- `opEmit` with the gate enabled and deserialization succeeded runs the
request body. -/
theorem opEmit_true (env : Env) (args : EmitArgs) :
    opEmit true env (.ok args) = opEmitArgs env args := rfl

/-- Trace decomposition of the request body when handler selection and
import-map resolution both succeed. -/
theorem opEmitArgs_decomp (env : Env) (args : EmitArgs) (h1 : Handler)
    (ev1 : List Ev) (im : Option ImportMap) (ev2 : List Ev)
    (hSel : selectHandler env env.ambientPerms args.sources = (.ok h1, ev1))
    (hIm : resolveImportMapStage env args.importMapPath args.importMap = (.ok im, ev2)) :
    opEmitArgs env args =
      ((afterBuilder env args h1).1,
        ev1 ++ ev2 ++ [Ev.builderNew im] ++ (afterBuilder env args h1).2) := by
  unfold opEmitArgs
  rw [hSel, hIm]

/-- Trace decomposition of the request body when import-map resolution
fails: the error is returned and no builder is constructed. -/
theorem opEmitArgs_imError (env : Env) (args : EmitArgs) (h1 : Handler)
    (ev1 : List Ev) (e : EmitError) (ev2 : List Ev)
    (hSel : selectHandler env env.ambientPerms args.sources = (.ok h1, ev1))
    (hIm : resolveImportMapStage env args.importMapPath args.importMap = (.error e, ev2)) :
    opEmitArgs env args = (.error e, ev1 ++ ev2) := by
  unfold opEmitArgs
  rw [hSel, hIm]

/-- C7: while the unstable-feature flag is disabled, the operation fails
immediately with the fixed FeatureDisabled error naming `Deno.emit`,
before argument deserialization (the outcome is the same even when
deserialization would fail) and with an empty trace: no provider, no
builder, no fetch, no permission use. -/
theorem c7_feature_gate_checked_first (env : Env) (rawArgs : Except String EmitArgs) :
    opEmit false env rawArgs = (.error (.featureDisabled "Deno.emit"), []) := rfl

/-- C3: a request with `importMap` set and `importMapPath` absent fails
with the fixed configuration error, whatever the other request fields
are; no import map is parsed and no graph builder or graph is ever
constructed. -/
theorem c3_import_map_value_without_path (env : Env) (args : EmitArgs) (v : String)
    (hv : args.importMap = some v)
    (hp : args.importMapPath = Option.none)
    (hf : args.sources = Option.none → env.fetchHandlerNew = Except.ok ()) :
    (opEmit true env (.ok args)).1 =
      .error (.generic "An importMap was specified, but no importMapPath was provided, which is required.")
    ∧ (∀ b j, Ev.parseImportMap b j ∉ (opEmit true env (.ok args)).2)
    ∧ (∀ im, Ev.builderNew im ∉ (opEmit true env (.ok args)).2)
    ∧ (∀ s d, Ev.addRoot s d ∉ (opEmit true env (.ok args)).2) := by
  have hIm : resolveImportMapStage env args.importMapPath args.importMap =
      (.error (.generic "An importMap was specified, but no importMapPath was provided, which is required."), []) := by
    rw [hp, hv]
    simp [resolveImportMapStage]
  rw [opEmit_true]
  cases hs : args.sources with
  | none =>
      have hSel : selectHandler env env.ambientPerms args.sources =
          (.ok (.fetch env.ambientPerms env.ambientPerms),
            [Ev.handlerFetchNew env.ambientPerms env.ambientPerms]) := by
        rw [hs]
        unfold selectHandler
        rw [hf hs]
      rw [opEmitArgs_imError env args _ _ _ _ hSel hIm]
      simp
  | some srcs =>
      have hSel : selectHandler env env.ambientPerms args.sources =
          (.ok (.memory srcs), [Ev.handlerMemory srcs]) := by
        rw [hs]
        rfl
      rw [opEmitArgs_imError env args _ _ _ _ hSel hIm]
      simp

/-- C3 witness: the configuration error at a concrete request. -/
theorem c3_import_map_value_without_path_witness :
    (opEmit true testEnv (.ok { testArgs with importMap := some "inlinemapjson" })).1 =
      .error (.generic "An importMap was specified, but no importMapPath was provided, which is required.") :=
  (c3_import_map_value_without_path testEnv
    { testArgs with importMap := some "inlinemapjson" } "inlinemapjson"
    rfl rfl (fun _ => rfl)).1

/-- C10: a request with `importMapPath` set whose path does not resolve
to an absolute specifier fails with the "Bad URL" configuration error —
even when an inline `importMap` value is also supplied — and it does so
before any import-map parsing, any external fetch, and any graph
construction. -/
theorem c10_bad_import_map_url_first (env : Env) (args : EmitArgs) (p e : String)
    (hp : args.importMapPath = some p)
    (hr : env.resolveUrl p = .error e)
    (hf : args.sources = Option.none → env.fetchHandlerNew = Except.ok ()) :
    (opEmit true env (.ok args)).1 =
      .error (.generic ("Bad URL (\"" ++ p ++ "\") for import map."))
    ∧ (∀ b j, Ev.parseImportMap b j ∉ (opEmit true env (.ok args)).2)
    ∧ (∀ s, Ev.fetchExternal s ∉ (opEmit true env (.ok args)).2)
    ∧ (∀ im, Ev.builderNew im ∉ (opEmit true env (.ok args)).2)
    ∧ (∀ s d, Ev.addRoot s d ∉ (opEmit true env (.ok args)).2) := by
  have hIm : resolveImportMapStage env args.importMapPath args.importMap =
      (.error (.generic ("Bad URL (\"" ++ p ++ "\") for import map.")), []) := by
    rw [hp]
    simp [resolveImportMapStage, hr]
  rw [opEmit_true]
  cases hs : args.sources with
  | none =>
      have hSel : selectHandler env env.ambientPerms args.sources =
          (.ok (.fetch env.ambientPerms env.ambientPerms),
            [Ev.handlerFetchNew env.ambientPerms env.ambientPerms]) := by
        rw [hs]
        unfold selectHandler
        rw [hf hs]
      rw [opEmitArgs_imError env args _ _ _ _ hSel hIm]
      simp
  | some srcs =>
      have hSel : selectHandler env env.ambientPerms args.sources =
          (.ok (.memory srcs), [Ev.handlerMemory srcs]) := by
        rw [hs]
        rfl
      rw [opEmitArgs_imError env args _ _ _ _ hSel hIm]
      simp

/-- C10 witness: the "Bad URL" error at a concrete request whose import
map path does not resolve, with an inline import map also present. -/
theorem c10_bad_import_map_url_first_witness :
    (opEmit true { testEnv with resolveUrl := fun _ => .error "relative URL without a base" }
        (.ok { testArgs with importMapPath := some "::bad::", importMap := some "inlinemapjson" })).1 =
      .error (.generic ("Bad URL (\"" ++ "::bad::" ++ "\") for import map.")) :=
  (c10_bad_import_map_url_first
    { testEnv with resolveUrl := fun _ => .error "relative URL without a base" }
    { testArgs with importMapPath := some "::bad::", importMap := some "inlinemapjson" }
    "::bad::" "relative URL without a base" rfl rfl (fun _ => rfl)).1

/-- C5: a request with `importMapPath` set and `importMap` absent fetches
the import map exactly once.  If the fetch fails, the operation fails
with the wrapped "Unable to load ... import map" error and no graph
builder is ever constructed, no root is added and no emission happens; if
the fetch succeeds, the fetched text is what gets parsed, and exactly one
external fetch happened before the builder was constructed. -/
theorem c5_import_map_fetched_exactly_once (env : Env) (args : EmitArgs)
    (p spec : String)
    (hp : args.importMapPath = some p)
    (hv : args.importMap = Option.none)
    (hr : env.resolveUrl p = .ok spec)
    (hf : args.sources = Option.none → env.fetchHandlerNew = Except.ok ()) :
    (∀ e, env.fileFetch spec = .error e →
      (opEmit true env (.ok args)).1 =
        .error (.generic ("Unable to load \x27" ++ spec ++ "\x27 import map: " ++ e))
      ∧ (opEmit true env (.ok args)).2.filter Ev.isExternal = [Ev.fetchExternal spec]
      ∧ (∀ im, Ev.builderNew im ∉ (opEmit true env (.ok args)).2)
      ∧ (∀ s d, Ev.addRoot s d ∉ (opEmit true env (.ok args)).2)
      ∧ (∀ bt c dg, Ev.emitCall bt c dg ∉ (opEmit true env (.ok args)).2))
    ∧ (∀ text, env.fileFetch spec = .ok text →
      Ev.parseImportMap spec text ∈ (opEmit true env (.ok args)).2
      ∧ ((opEmit true env (.ok args)).2.takeWhile
            (fun ev => !Ev.isBuilderNew ev)).filter Ev.isExternal
          = [Ev.fetchExternal spec]) := by
  rw [opEmit_true]
  have hSel : ∃ h1 ev1, selectHandler env env.ambientPerms args.sources = (.ok h1, ev1)
      ∧ (ev1 = [Ev.handlerFetchNew env.ambientPerms env.ambientPerms]
          ∨ ∃ srcs, h1 = Handler.memory srcs ∧ ev1 = [Ev.handlerMemory srcs]) := by
    cases hs : args.sources with
    | none =>
        refine ⟨Handler.fetch env.ambientPerms env.ambientPerms,
          [Ev.handlerFetchNew env.ambientPerms env.ambientPerms], ?_, Or.inl rfl⟩
        unfold selectHandler
        rw [hf hs]
    | some srcs =>
        exact ⟨Handler.memory srcs, [Ev.handlerMemory srcs], rfl,
          Or.inr ⟨srcs, rfl, rfl⟩⟩
  obtain ⟨h1, ev1, hSel, hev1⟩ := hSel
  constructor
  · intro e hfe
    have hIm : resolveImportMapStage env args.importMapPath args.importMap =
        (.error (.generic ("Unable to load \x27" ++ spec ++ "\x27 import map: " ++ e)),
          [Ev.fetchExternal spec]) := by
      rw [hp, hv]
      simp [resolveImportMapStage, hr, hfe]
    rw [opEmitArgs_imError env args _ _ _ _ hSel hIm]
    rcases hev1 with hev1 | ⟨srcs, _, hev1⟩ <;> subst hev1 <;>
      simp [Ev.isExternal, List.filter]
  · intro text hft
    cases him : importMapFromJson env spec text with
    | ok im =>
        have hIm : resolveImportMapStage env args.importMapPath args.importMap =
            (.ok (some im), [Ev.fetchExternal spec, Ev.parseImportMap spec text]) := by
          rw [hp, hv]
          simp [resolveImportMapStage, hr, hft, him]
        rw [opEmitArgs_decomp env args h1 ev1 (some im) _ hSel hIm]
        rcases hev1 with hev1 | ⟨srcs, _, hev1⟩ <;> subst hev1 <;>
          simp [Ev.isExternal, Ev.isBuilderNew, List.takeWhile, List.filter]
    | error e' =>
        have hIm : resolveImportMapStage env args.importMapPath args.importMap =
            (.error e', [Ev.fetchExternal spec, Ev.parseImportMap spec text]) := by
          rw [hp, hv]
          simp [resolveImportMapStage, hr, hft, him]
        rw [opEmitArgs_imError env args _ _ _ _ hSel hIm]
        rcases hev1 with hev1 | ⟨srcs, _, hev1⟩ <;> subst hev1 <;>
          simp [Ev.isExternal, Ev.isBuilderNew, List.takeWhile, List.filter]

/-- C5 witness: with a path-only import map the fetched text is parsed
and the only pre-builder external fetch is the single import-map fetch. -/
theorem c5_import_map_fetched_exactly_once_witness :
    Ev.parseImportMap "file:///im.json" "fetchedmapjson" ∈
      (opEmit true testEnv (.ok { testArgs with importMapPath := some "file:///im.json" })).2 :=
  ((c5_import_map_fetched_exactly_once testEnv
      { testArgs with importMapPath := some "file:///im.json" }
      "file:///im.json" "file:///im.json" rfl rfl rfl (fun _ => rfl)).2
    "fetchedmapjson" rfl).1

/-- Replacing the import-map file fetcher leaves a single handler fetch
unchanged: module fetching never consults it. -/
theorem handlerFetchOne_withFileFetch (env : Env)
    (f : String → Except String String) (h : Handler) (s : String) (d : Bool) :
    handlerFetchOne (withFileFetch env f) h s d = handlerFetchOne env h s d := by
  cases h <;> rfl

/-- Replacing the import-map file fetcher leaves the whole handler fetch
sequence unchanged. -/
theorem fetchList_withFileFetch (env : Env)
    (f : String → Except String String) (h : Handler) (l : List (String × Bool)) :
    fetchList (withFileFetch env f) h l = fetchList env h l := by
  induction l with
  | nil => rfl
  | cons hd tl ih =>
      obtain ⟨s, d⟩ := hd
      unfold fetchList
      rw [handlerFetchOne_withFileFetch, ih]

/-- Replacing the import-map file fetcher leaves the graph-builder add
step unchanged. -/
theorem builderAdd_withFileFetch (env : Env)
    (f : String → Except String String) (h : Handler) (root : String) (d : Bool) :
    builderAdd (withFileFetch env f) h root d = builderAdd env h root d := by
  unfold builderAdd
  have hd : (withFileFetch env f).deps = env.deps := rfl
  rw [hd, fetchList_withFileFetch]

/-- Replacing the import-map file fetcher leaves the pipeline from root
resolution onward unchanged. -/
theorem afterBuilder_withFileFetch (env : Env)
    (f : String → Except String String) (args : EmitArgs) (h : Handler) :
    afterBuilder (withFileFetch env f) args h = afterBuilder env args h := by
  unfold afterBuilder
  have h1 : (withFileFetch env f).resolveUrl = env.resolveUrl := rfl
  have h2 : (withFileFetch env f).analyzeResult = env.analyzeResult := rfl
  have h3 : (withFileFetch env f).logDebug = env.logDebug := rfl
  have h4 : (withFileFetch env f).graphErrors = env.graphErrors := rfl
  have h5 : (withFileFetch env f).emitResult = env.emitResult := rfl
  simp only [h1, h2, h3, h4, h5, builderAdd_withFileFetch]

/-- If the import-map stage is unaffected by a file-fetcher replacement,
the whole request body is unaffected by it. -/
theorem opEmitArgs_fileFetch_congr (env : Env)
    (f : String → Except String String) (args : EmitArgs)
    (hst : resolveImportMapStage (withFileFetch env f) args.importMapPath args.importMap
        = resolveImportMapStage env args.importMapPath args.importMap) :
    opEmitArgs (withFileFetch env f) args = opEmitArgs env args := by
  unfold opEmitArgs
  have h0 : (withFileFetch env f).ambientPerms = env.ambientPerms := rfl
  have h1 : ∀ (p : Perms) (so : Option (List (String × String))),
      selectHandler (withFileFetch env f) p so = selectHandler env p so := by
    intro p so
    cases so with
    | some srcs => rfl
    | none =>
        unfold selectHandler
        have h2 : (withFileFetch env f).fetchHandlerNew = env.fetchHandlerNew := rfl
        rw [h2]
  simp only [h0, h1, hst, afterBuilder_withFileFetch]

/-- C4: a request with both `importMapPath` and `importMap` set never
performs a fetch for the import map: the whole operation is unchanged
under any replacement of the file fetcher (in particular one whose every
fetch fails), no external fetch happens before the graph builder is
constructed, and the inline value is parsed directly with the resolved
path as the map's base specifier identity. -/
theorem c4_inline_import_map_never_fetched (env : Env) (args : EmitArgs)
    (p v : String)
    (hp : args.importMapPath = some p)
    (hv : args.importMap = some v)
    (hf : args.sources = Option.none → env.fetchHandlerNew = Except.ok ()) :
    (∀ f, opEmit true (withFileFetch env f) (.ok args) = opEmit true env (.ok args))
    ∧ ((opEmit true env (.ok args)).2.takeWhile
          (fun ev => !Ev.isBuilderNew ev)).filter Ev.isExternal = []
    ∧ (∀ spec, env.resolveUrl p = .ok spec →
        Ev.parseImportMap spec v ∈ (opEmit true env (.ok args)).2
        ∧ (env.parseOk spec v = true →
            Ev.builderNew (some ⟨spec, v⟩) ∈ (opEmit true env (.ok args)).2)) := by
  have hstage : ∀ f, resolveImportMapStage (withFileFetch env f)
      args.importMapPath args.importMap =
      resolveImportMapStage env args.importMapPath args.importMap := by
    intro f
    rw [hp, hv]
    cases hr : env.resolveUrl p with
    | error e =>
        have hr' : (withFileFetch env f).resolveUrl p = .error e := hr
        simp [resolveImportMapStage, hr, hr']
    | ok spec =>
        have hr' : (withFileFetch env f).resolveUrl p = .ok spec := hr
        cases him : importMapFromJson env spec v with
        | ok im =>
            have him' : importMapFromJson (withFileFetch env f) spec v = .ok im := him
            simp [resolveImportMapStage, hr, hr', him, him']
        | error e =>
            have him' : importMapFromJson (withFileFetch env f) spec v = .error e := him
            simp [resolveImportMapStage, hr, hr', him, him']
  refine ⟨?_, ?_⟩
  · intro f
    rw [opEmit_true, opEmit_true]
    exact opEmitArgs_fileFetch_congr env f args (hstage f)
  · have hSel : ∃ h1 ev1, selectHandler env env.ambientPerms args.sources = (.ok h1, ev1)
        ∧ (ev1 = [Ev.handlerFetchNew env.ambientPerms env.ambientPerms]
            ∨ ∃ srcs, h1 = Handler.memory srcs ∧ ev1 = [Ev.handlerMemory srcs]) := by
      cases hs : args.sources with
      | none =>
          refine ⟨Handler.fetch env.ambientPerms env.ambientPerms,
            [Ev.handlerFetchNew env.ambientPerms env.ambientPerms], ?_, Or.inl rfl⟩
          unfold selectHandler
          rw [hf hs]
      | some srcs =>
          exact ⟨Handler.memory srcs, [Ev.handlerMemory srcs], rfl,
            Or.inr ⟨srcs, rfl, rfl⟩⟩
    obtain ⟨h1, ev1, hSel, hev1⟩ := hSel
    rw [opEmit_true]
    cases hr : env.resolveUrl p with
    | error e =>
        have hIm : resolveImportMapStage env args.importMapPath args.importMap =
            (.error (.generic ("Bad URL (\"" ++ p ++ "\") for import map.")), []) := by
          rw [hp]
          simp [resolveImportMapStage, hr]
        rw [opEmitArgs_imError env args _ _ _ _ hSel hIm]
        refine ⟨?_, ?_⟩
        · rcases hev1 with hev1 | ⟨srcs, _, hev1⟩ <;> subst hev1 <;>
            simp [Ev.isExternal, Ev.isBuilderNew, List.takeWhile, List.filter]
        · intro spec hspec
          exact absurd hspec (by simp)
    | ok spec =>
        cases hpo : env.parseOk spec v with
        | true =>
            have him : importMapFromJson env spec v = .ok ⟨spec, v⟩ := by
              unfold importMapFromJson
              rw [hpo]
              rfl
            have hIm : resolveImportMapStage env args.importMapPath args.importMap =
                (.ok (some ⟨spec, v⟩), [Ev.parseImportMap spec v]) := by
              rw [hp, hv]
              simp [resolveImportMapStage, hr, him]
            rw [opEmitArgs_decomp env args h1 ev1 _ _ hSel hIm]
            refine ⟨?_, ?_⟩
            · rcases hev1 with hev1 | ⟨srcs, _, hev1⟩ <;> subst hev1 <;>
                simp [Ev.isExternal, Ev.isBuilderNew, List.takeWhile, List.filter]
            · intro spec' hspec'
              have hss : spec = spec' := by simpa using hspec'
              subst hss
              refine ⟨by simp, fun _ => by simp⟩
        | false =>
            have him : importMapFromJson env spec v =
                .error (.other (env.parseErrMsg spec v)) := by
              unfold importMapFromJson
              rw [hpo]
              rfl
            have hIm : resolveImportMapStage env args.importMapPath args.importMap =
                (.error (.other (env.parseErrMsg spec v)), [Ev.parseImportMap spec v]) := by
              rw [hp, hv]
              simp [resolveImportMapStage, hr, him]
            rw [opEmitArgs_imError env args _ _ _ _ hSel hIm]
            refine ⟨?_, ?_⟩
            · rcases hev1 with hev1 | ⟨srcs, _, hev1⟩ <;> subst hev1 <;>
                simp [Ev.isExternal, Ev.isBuilderNew, List.takeWhile, List.filter]
            · intro spec' hspec'
              have hss : spec = spec' := by simpa using hspec'
              subst hss
              refine ⟨by simp, fun hok => ?_⟩
              simp [hok] at hpo

/-- C4 witness: with both fields set the inline value is parsed with the
resolved path as base and handed to the builder. -/
theorem c4_inline_import_map_never_fetched_witness :
    Ev.builderNew (some ⟨"file:///im.json", "inlinemapjson"⟩) ∈
      (opEmit true testEnv (.ok { testArgs with
        importMapPath := some "file:///im.json",
        importMap := some "inlinemapjson" })).2 :=
  (((c4_inline_import_map_never_fetched testEnv
      { testArgs with
        importMapPath := some "file:///im.json",
        importMap := some "inlinemapjson" }
      "file:///im.json" "inlinemapjson" rfl rfl (fun _ => rfl)).2.2
    "file:///im.json" rfl).2 rfl)

/-- C6: on every successful request the returned diagnostics are exactly
the emission-stage diagnostics followed by the graph-level errors,
appended at the end, never interleaved or reordered. -/
theorem c6_graph_errors_after_emit_diagnostics (env : Env) (args : EmitArgs)
    (h1 : Handler) (ev1 : List Ev) (im : Option ImportMap) (ev2 : List Ev)
    (root : String) (ev4 : List Ev) (files : List (String × String))
    (info : ResultInfo)
    (hSel : selectHandler env env.ambientPerms args.sources = (.ok h1, ev1))
    (hIm : resolveImportMapStage env args.importMapPath args.importMap = (.ok im, ev2))
    (hRoot : env.resolveUrl args.rootSpecifier = .ok root)
    (hAdd : builderAdd env h1 root false = (.ok (), ev4))
    (hAn : env.analyzeResult args.compilerOptions = .ok ())
    (hEmit : env.emitResult ⟨bundleTypeOf args.bundle, args.check.getD true,
        env.logDebug, args.compilerOptions⟩ = .ok (files, info)) :
    (opEmit true env (.ok args)).1 =
      .ok ⟨info.diagnostics ++ env.graphErrors, files,
        info.maybeIgnoredOptions, info.stats⟩ := by
  rw [opEmit_true, opEmitArgs_decomp env args h1 ev1 im ev2 hSel hIm]
  show (afterBuilder env args h1).1 = _
  unfold afterBuilder
  simp only [hRoot, hAdd, hAn, hEmit]

/-- C6 witness: one emission diagnostic and one graph error yield exactly
the sequence [emission diagnostic, graph error]. -/
theorem c6_graph_errors_after_emit_diagnostics_witness :
    (opEmit true testEnv (.ok testArgs)).1 =
      .ok ⟨["emitDiag", "graphErr"], [("file:///a.ts.js", "emitted")],
        Option.none, [("totalTime", 1)]⟩ :=
  c6_graph_errors_after_emit_diagnostics testEnv testArgs
    (Handler.fetch ["file:///a.ts"] ["file:///a.ts"])
    [Ev.handlerFetchNew ["file:///a.ts"] ["file:///a.ts"]]
    Option.none [] "file:///a.ts"
    [Ev.addRoot "file:///a.ts" false,
      Ev.permCheck ["file:///a.ts"] "file:///a.ts",
      Ev.fetchExternal "file:///a.ts"]
    [("file:///a.ts.js", "emitted")]
    ⟨["emitDiag"], Option.none, [("totalTime", 1)]⟩
    rfl rfl rfl rfl rfl rfl

/-- C8: whenever adding the root specifier to the graph builder fails,
for whatever underlying reason, the operation fails with the single
uniform "Unable to handle the given specifier" type error — the
conclusion does not depend on the cause `e`, which is discarded. -/
theorem c8_uniform_root_add_error (env : Env) (args : EmitArgs)
    (h1 : Handler) (ev1 : List Ev) (im : Option ImportMap) (ev2 : List Ev)
    (root e : String) (ev4 : List Ev)
    (hSel : selectHandler env env.ambientPerms args.sources = (.ok h1, ev1))
    (hIm : resolveImportMapStage env args.importMapPath args.importMap = (.ok im, ev2))
    (hRoot : env.resolveUrl args.rootSpecifier = .ok root)
    (hAdd : builderAdd env h1 root false = (.error e, ev4)) :
    (opEmit true env (.ok args)).1 =
      .error (.typeError ("Unable to handle the given specifier: " ++ root)) := by
  rw [opEmit_true, opEmitArgs_decomp env args h1 ev1 im ev2 hSel hIm]
  show (afterBuilder env args h1).1 = _
  unfold afterBuilder
  simp only [hRoot, hAdd]

/-- C8 witness: a permission-denied root (empty ambient permission set)
surfaces as the uniform type error with no trace of the cause. -/
theorem c8_uniform_root_add_error_witness :
    (opEmit true { testEnv with ambientPerms := [] } (.ok testArgs)).1 =
      .error (.typeError ("Unable to handle the given specifier: " ++ "file:///a.ts")) :=
  c8_uniform_root_add_error { testEnv with ambientPerms := [] } testArgs
    (Handler.fetch [] []) [Ev.handlerFetchNew [] []] Option.none []
    "file:///a.ts" ("PermissionDenied: " ++ "file:///a.ts")
    [Ev.addRoot "file:///a.ts" false, Ev.permCheck [] "file:///a.ts"]
    rfl rfl rfl rfl

/-- C9: the request's bundle field maps 1:1 onto the builder's bundle
enumeration — absent ⇒ no bundling, "module" ⇒ module bundle, "classic"
⇒ classic bundle — and the emission call receives exactly the mapped
mode (with the check flag defaulted to true and the ambient debug flag). -/
theorem c9_bundle_field_maps_one_to_one (env : Env) (args : EmitArgs)
    (h1 : Handler) (ev1 : List Ev) (im : Option ImportMap) (ev2 : List Ev)
    (root : String) (ev4 : List Ev)
    (hSel : selectHandler env env.ambientPerms args.sources = (.ok h1, ev1))
    (hIm : resolveImportMapStage env args.importMapPath args.importMap = (.ok im, ev2))
    (hRoot : env.resolveUrl args.rootSpecifier = .ok root)
    (hAdd : builderAdd env h1 root false = (.ok (), ev4))
    (hAn : env.analyzeResult args.compilerOptions = .ok ()) :
    Ev.emitCall (bundleTypeOf args.bundle) (args.check.getD true) env.logDebug ∈
      (opEmit true env (.ok args)).2
    ∧ bundleTypeOf Option.none = BundleType.none
    ∧ bundleTypeOf (some RuntimeBundleType.module) = BundleType.module
    ∧ bundleTypeOf (some RuntimeBundleType.classic) = BundleType.classic := by
  refine ⟨?_, rfl, rfl, rfl⟩
  rw [opEmit_true, opEmitArgs_decomp env args h1 ev1 im ev2 hSel hIm]
  have hmem : Ev.emitCall (bundleTypeOf args.bundle) (args.check.getD true)
      env.logDebug ∈ (afterBuilder env args h1).2 := by
    unfold afterBuilder
    simp only [hRoot, hAdd, hAn]
    cases hem : env.emitResult ⟨bundleTypeOf args.bundle, args.check.getD true,
        env.logDebug, args.compilerOptions⟩ with
    | error e2 => simp
    | ok fi =>
        obtain ⟨files, info⟩ := fi
        simp
  simp [hmem]

/-- C9 witness: the table of all three bundle inputs, observed at the
emission call. -/
theorem c9_bundle_field_maps_one_to_one_witness :
    Ev.emitCall BundleType.none true false ∈
      (opEmit true testEnv (.ok testArgs)).2
    ∧ Ev.emitCall BundleType.module true false ∈
      (opEmit true testEnv (.ok { testArgs with bundle := some RuntimeBundleType.module })).2
    ∧ Ev.emitCall BundleType.classic true false ∈
      (opEmit true testEnv (.ok { testArgs with bundle := some RuntimeBundleType.classic })).2 :=
  ⟨(c9_bundle_field_maps_one_to_one testEnv testArgs
      (Handler.fetch ["file:///a.ts"] ["file:///a.ts"])
      [Ev.handlerFetchNew ["file:///a.ts"] ["file:///a.ts"]]
      Option.none [] "file:///a.ts"
      [Ev.addRoot "file:///a.ts" false,
        Ev.permCheck ["file:///a.ts"] "file:///a.ts",
        Ev.fetchExternal "file:///a.ts"]
      rfl rfl rfl rfl rfl).1,
    (c9_bundle_field_maps_one_to_one testEnv
      { testArgs with bundle := some RuntimeBundleType.module }
      (Handler.fetch ["file:///a.ts"] ["file:///a.ts"])
      [Ev.handlerFetchNew ["file:///a.ts"] ["file:///a.ts"]]
      Option.none [] "file:///a.ts"
      [Ev.addRoot "file:///a.ts" false,
        Ev.permCheck ["file:///a.ts"] "file:///a.ts",
        Ev.fetchExternal "file:///a.ts"]
      rfl rfl rfl rfl rfl).1,
    (c9_bundle_field_maps_one_to_one testEnv
      { testArgs with bundle := some RuntimeBundleType.classic }
      (Handler.fetch ["file:///a.ts"] ["file:///a.ts"])
      [Ev.handlerFetchNew ["file:///a.ts"] ["file:///a.ts"]]
      Option.none [] "file:///a.ts"
      [Ev.addRoot "file:///a.ts" false,
        Ev.permCheck ["file:///a.ts"] "file:///a.ts",
        Ev.fetchExternal "file:///a.ts"]
      rfl rfl rfl rfl rfl).1⟩

/-- A fetch-handler fetch always records the permission check against the
slot selected by the dynamic flag. -/
theorem handlerFetchOne_fetch_permCheck (env : Env) (a b : Perms)
    (s : String) (d : Bool) :
    Ev.permCheck (if d then b else a) s ∈ (handlerFetchOne env (.fetch a b) s d).2 := by
  unfold handlerFetchOne
  by_cases hmem : s ∈ (if d then b else a) <;> simp [hmem]

/-- Events of the first fetch of a handler fetch sequence are in the
sequence's trace. -/
theorem fetchList_head_mem (env : Env) (h : Handler) (s : String) (d : Bool)
    (rest : List (String × Bool)) (e : Ev)
    (he : e ∈ (handlerFetchOne env h s d).2) :
    e ∈ (fetchList env h ((s, d) :: rest)).2 := by
  unfold fetchList
  rcases hone : handlerFetchOne env h s d with ⟨r, ev⟩
  rw [hone] at he
  cases r with
  | error _ => simpa using he
  | ok _ =>
      rcases hrest : fetchList env h rest with ⟨r2, ev2⟩
      exact List.mem_append_left _ he

/-- Events of the root's handler fetch are in the builder-add trace. -/
theorem builderAdd_mem_of_head (env : Env) (h : Handler) (root : String)
    (d : Bool) (e : Ev) (he : e ∈ (handlerFetchOne env h root d).2) :
    e ∈ (builderAdd env h root d).2 := by
  rw [builderAdd_eq]
  exact List.mem_cons_of_mem _ (fetchList_head_mem env h root d _ e he)

/-- Events of the builder-add step are in the trace of the pipeline from
root resolution onward. -/
theorem afterBuilder_mem_of_add (env : Env) (args : EmitArgs) (h : Handler)
    (root : String) (e : Ev)
    (hr : env.resolveUrl args.rootSpecifier = .ok root)
    (he : e ∈ (builderAdd env h root false).2) :
    e ∈ (afterBuilder env args h).2 := by
  unfold afterBuilder
  simp only [hr]
  rcases hb : builderAdd env h root false with ⟨r, ev4⟩
  rw [hb] at he
  cases r with
  | error _ => simpa using he
  | ok _ =>
      cases han : env.analyzeResult args.compilerOptions with
      | error _ => simpa using he
      | ok _ =>
          cases hem : env.emitResult ⟨bundleTypeOf args.bundle,
              args.check.getD true, env.logDebug, args.compilerOptions⟩ with
          | error _ =>
              simp only []
              exact List.mem_append_left _ he
          | ok fi =>
              obtain ⟨files, info⟩ := fi
              simp only []
              exact List.mem_append_left _ he

/-- A fetch handler denies the root when the static slot does not allow
it: the add step fails after exactly the permission check. -/
theorem builderAdd_fetch_denied (env : Env) (a b : Perms) (root : String)
    (hmem : root ∉ a) :
    builderAdd env (.fetch a b) root false =
      (.error ("PermissionDenied: " ++ root),
        [Ev.addRoot root false, Ev.permCheck a root]) := by
  unfold builderAdd fetchList handlerFetchOne
  simp [hmem]

/-- The memory handler turns a root that is not among the seeded sources
into an error after one lookup, with no fetch. -/
theorem builderAdd_memory_miss (env : Env) (srcs : List (String × String))
    (root : String) (hlook : alookup srcs root = Option.none) :
    builderAdd env (.memory srcs) root false =
      (.error ("Unable to find specifier in sources: " ++ root),
        [Ev.addRoot root false, Ev.memoryLookup root]) := by
  unfold builderAdd fetchList handlerFetchOne
  simp [hlook]

/-- C2: without `sources` the permissioned provider is built from two
clones of the same ambient permission set, so the root — added to the
graph with the dynamic flag false — is permission-checked against that
ambient set, which is exactly the provider's dynamic-import slot; a set
that denies the root makes the request fail.  With `sources` the memory
provider is used and no permission check ever happens. -/
theorem c2_root_permission_discipline (env : Env) (args : EmitArgs)
    (im : Option ImportMap) (ev2 : List Ev) (root : String)
    (hIm : resolveImportMapStage env args.importMapPath args.importMap = (.ok im, ev2))
    (hRoot : env.resolveUrl args.rootSpecifier = .ok root)
    (hf : args.sources = Option.none → env.fetchHandlerNew = Except.ok ()) :
    (args.sources = Option.none →
        Ev.handlerFetchNew env.ambientPerms env.ambientPerms ∈ (opEmit true env (.ok args)).2
      ∧ Ev.permCheck env.ambientPerms root ∈ (opEmit true env (.ok args)).2
      ∧ (root ∉ env.ambientPerms →
          (opEmit true env (.ok args)).1 =
            .error (.typeError ("Unable to handle the given specifier: " ++ root))))
    ∧ (∀ srcs, args.sources = some srcs →
        Ev.handlerMemory srcs ∈ (opEmit true env (.ok args)).2
      ∧ (∀ ps s, Ev.permCheck ps s ∉ (opEmit true env (.ok args)).2))
    ∧ Ev.addRoot root false ∈ (opEmit true env (.ok args)).2 := by
  rw [opEmit_true]
  refine ⟨?_, ?_, ?_⟩
  · intro hs
    have hSel : selectHandler env env.ambientPerms args.sources =
        (.ok (.fetch env.ambientPerms env.ambientPerms),
          [Ev.handlerFetchNew env.ambientPerms env.ambientPerms]) := by
      rw [hs]
      unfold selectHandler
      rw [hf hs]
    rw [opEmitArgs_decomp env args _ _ im ev2 hSel hIm]
    refine ⟨by simp, ?_, ?_⟩
    · have hpc : Ev.permCheck env.ambientPerms root ∈
          (handlerFetchOne env (.fetch env.ambientPerms env.ambientPerms) root false).2 :=
        handlerFetchOne_fetch_permCheck env env.ambientPerms env.ambientPerms root false
      have hmem := afterBuilder_mem_of_add env args
        (.fetch env.ambientPerms env.ambientPerms) root
        (Ev.permCheck env.ambientPerms root) hRoot
        (builderAdd_mem_of_head env _ root false _ hpc)
      simp [hmem]
    · intro hden
      have hAdd := builderAdd_fetch_denied env env.ambientPerms env.ambientPerms root hden
      show (afterBuilder env args (.fetch env.ambientPerms env.ambientPerms)).1 = _
      unfold afterBuilder
      simp only [hRoot, hAdd]
  · intro srcs hs
    have hSel : selectHandler env env.ambientPerms args.sources =
        (.ok (.memory srcs), [Ev.handlerMemory srcs]) := by
      rw [hs]
      rfl
    rw [opEmitArgs_decomp env args _ _ im ev2 hSel hIm]
    refine ⟨by simp, ?_⟩
    intro ps s hin
    simp at hin
    rcases hin with hin | hin
    · have := resolveImportMapStage_no_permCheck env args.importMapPath args.importMap ps s
      rw [hIm] at this
      exact this hin
    · rcases afterBuilder_memory_events env args srcs _ hin with ⟨s2, h2⟩ | ⟨s2, d2, h2⟩ | ⟨b2, c2, d2, h2⟩ <;>
        cases h2
  · cases hs : args.sources with
    | none =>
        have hSel : selectHandler env env.ambientPerms args.sources =
            (.ok (.fetch env.ambientPerms env.ambientPerms),
              [Ev.handlerFetchNew env.ambientPerms env.ambientPerms]) := by
          rw [hs]
          unfold selectHandler
          rw [hf hs]
        rw [opEmitArgs_decomp env args _ _ im ev2 hSel hIm]
        have := afterBuilder_addRoot env args (.fetch env.ambientPerms env.ambientPerms) root hRoot
        simp [this]
    | some srcs =>
        have hSel : selectHandler env env.ambientPerms args.sources =
            (.ok (.memory srcs), [Ev.handlerMemory srcs]) := by
          rw [hs]
          rfl
        rw [opEmitArgs_decomp env args _ _ im ev2 hSel hIm]
        have := afterBuilder_addRoot env args (.memory srcs) root hRoot
        simp [this]

/-- C2 witness: without sources and an ambient set that denies the root,
the request fails with the uniform resolution error; the permission check
against the ambient set is recorded. -/
theorem c2_root_permission_discipline_witness :
    (Ev.permCheck [] "file:///a.ts" ∈
      (opEmit true { testEnv with ambientPerms := [] } (.ok testArgs)).2)
    ∧ (opEmit true { testEnv with ambientPerms := [] } (.ok testArgs)).1 =
        .error (.typeError ("Unable to handle the given specifier: " ++ "file:///a.ts")) :=
  ⟨((c2_root_permission_discipline { testEnv with ambientPerms := [] } testArgs
      Option.none [] "file:///a.ts" rfl rfl (fun _ => rfl)).1 rfl).2.1,
    ((c2_root_permission_discipline { testEnv with ambientPerms := [] } testArgs
      Option.none [] "file:///a.ts" rfl rfl (fun _ => rfl)).1 rfl).2.2
      (by simp)⟩

/-- Unfolding equation for one step of the handler fetch sequence. -/
theorem fetchList_cons_eq (env : Env) (h : Handler) (s : String) (d : Bool)
    (rest : List (String × Bool)) :
    fetchList env h ((s, d) :: rest) =
      (match handlerFetchOne env h s d with
        | (.error e, ev) => (.error e, ev)
        | (.ok _, ev) => ((fetchList env h rest).1, ev ++ (fetchList env h rest).2)) :=
  rfl

/-- A memory-handler fetch sequence fails whenever any requested
specifier is missing from the seeded sources: resolution stops at the
first miss with an error, never a fetch. -/
theorem fetchList_memory_missing_fails (env : Env)
    (srcs : List (String × String)) (l : List (String × Bool))
    (s : String) (d : Bool) (hin : (s, d) ∈ l)
    (hmiss : alookup srcs s = Option.none) :
    ∃ e, (fetchList env (.memory srcs) l).1 = Except.error e := by
  induction l with
  | nil => cases hin
  | cons hd tl ih =>
      obtain ⟨s1, d1⟩ := hd
      cases hl : alookup srcs s1 with
      | none =>
          refine ⟨"Unable to find specifier in sources: " ++ s1, ?_⟩
          have hone : handlerFetchOne env (.memory srcs) s1 d1 =
              (.error ("Unable to find specifier in sources: " ++ s1),
                [Ev.memoryLookup s1]) := by
            simp [handlerFetchOne, hl]
          rw [fetchList_cons_eq, hone]
      | some content =>
          have hin' : (s, d) ∈ tl := by
            rcases List.mem_cons.mp hin with heq | htl
            · rw [Prod.mk.injEq] at heq
              obtain ⟨h1, h2⟩ := heq
              subst h1
              rw [hl] at hmiss
              cases hmiss
            · exact htl
          obtain ⟨e, he⟩ := ih hin'
          refine ⟨e, ?_⟩
          have hone : handlerFetchOne env (.memory srcs) s1 d1 =
              (.ok content, [Ev.memoryLookup s1]) := by
            simp [handlerFetchOne, hl]
          rw [fetchList_cons_eq, hone]
          simpa using he

/-- With the memory handler, the add step fails whenever the root or any
discovered dependency is missing from the seeded sources. -/
theorem builderAdd_memory_missing_fails (env : Env)
    (srcs : List (String × String)) (root s : String)
    (hsd : s = root ∨ s ∈ env.deps root)
    (hmiss : alookup srcs s = Option.none) :
    ∃ e, (builderAdd env (.memory srcs) root false).1 = Except.error e := by
  rw [builderAdd_eq]
  have hin : (s, false) ∈
      (root, false) :: (env.deps root).map (fun x => (x, false)) := by
    rcases hsd with rfl | hdep
    · exact List.mem_cons_self _ _
    · exact List.mem_cons_of_mem _ (List.mem_map_of_mem _ hdep)
  exact fetchList_memory_missing_fails env srcs _ s false hin hmiss

/-- C1 (amended): with `sources` present, module resolution uses only the
memory provider seeded with exactly the supplied entries; the only
external fetch the operation can perform is the import-map fetch, which
happens only when `importMapPath` is set with `importMap` absent and
targets the resolved path; and referencing any specifier not in the
mapping — the root or any discovered dependency — fails with the uniform
resolution error rather than any fetch. -/
theorem c1_memory_sources_resolution (env : Env) (args : EmitArgs)
    (srcs : List (String × String)) (hs : args.sources = some srcs) :
    Ev.handlerMemory srcs ∈ (opEmit true env (.ok args)).2
    ∧ (∀ s, Ev.fetchExternal s ∈ (opEmit true env (.ok args)).2 →
        ∃ p, args.importMapPath = some p ∧ args.importMap = Option.none
          ∧ env.resolveUrl p = .ok s)
    ∧ (∀ root im ev2,
        resolveImportMapStage env args.importMapPath args.importMap = (.ok im, ev2) →
        env.resolveUrl args.rootSpecifier = .ok root →
        (∃ s, (s = root ∨ s ∈ env.deps root) ∧ alookup srcs s = Option.none) →
        (opEmit true env (.ok args)).1 =
          .error (.typeError ("Unable to handle the given specifier: " ++ root))) := by
  rw [opEmit_true]
  have hSel : selectHandler env env.ambientPerms args.sources =
      (.ok (.memory srcs), [Ev.handlerMemory srcs]) := by
    rw [hs]
    rfl
  refine ⟨?_, ?_, ?_⟩
  · rcases hstage : resolveImportMapStage env args.importMapPath args.importMap
      with ⟨ri, ev2⟩
    cases ri with
    | error e =>
        rw [opEmitArgs_imError env args _ _ _ _ hSel hstage]
        simp
    | ok im =>
        rw [opEmitArgs_decomp env args _ _ im ev2 hSel hstage]
        simp
  · intro s hin
    rcases hstage : resolveImportMapStage env args.importMapPath args.importMap
      with ⟨ri, ev2⟩
    have hev2 : Ev.fetchExternal s ∈ ev2 →
        ∃ p, args.importMapPath = some p ∧ args.importMap = Option.none
          ∧ env.resolveUrl p = .ok s := by
      intro h2
      apply resolveImportMapStage_fetchExternal env args.importMapPath args.importMap s
      rw [hstage]
      exact h2
    cases ri with
    | error e =>
        rw [opEmitArgs_imError env args _ _ _ _ hSel hstage] at hin
        simp at hin
        exact hev2 hin
    | ok im =>
        rw [opEmitArgs_decomp env args _ _ im ev2 hSel hstage] at hin
        simp at hin
        rcases hin with hin | hin
        · exact hev2 hin
        · rcases afterBuilder_memory_events env args srcs _ hin with
            ⟨s2, h2⟩ | ⟨s2, d2, h2⟩ | ⟨b2, c2, d2, h2⟩ <;> cases h2
  · intro root im ev2 hIm hRoot hmiss
    rw [opEmitArgs_decomp env args _ _ im ev2 hSel hIm]
    obtain ⟨s, hsd, hlook⟩ := hmiss
    obtain ⟨e, he⟩ := builderAdd_memory_missing_fails env srcs root s hsd hlook
    show (afterBuilder env args (.memory srcs)).1 = _
    unfold afterBuilder
    simp only [hRoot]
    rcases hb : builderAdd env (.memory srcs) root false with ⟨r, ev4⟩
    rw [hb] at he
    simp at he
    subst he
    rfl

/-- C1 witness: the memory provider is seeded with exactly the supplied
sources; a root absent from the mapping yields the uniform resolution
error, and so does a discovered dependency absent from the mapping even
when the root itself is supplied. -/
theorem c1_memory_sources_resolution_witness :
    Ev.handlerMemory [("file:///a.ts", "code")] ∈
      (opEmit true testEnv
        (.ok { testArgs with sources := some [("file:///a.ts", "code")] })).2
    ∧ (opEmit true testEnv
        (.ok { testArgs with
          sources := some [("file:///a.ts", "code")],
          rootSpecifier := "file:///missing.ts" })).1 =
        .error (.typeError ("Unable to handle the given specifier: " ++ "file:///missing.ts"))
    ∧ (opEmit true { testEnv with deps := fun _ => ["file:///dep.ts"] }
        (.ok { testArgs with sources := some [("file:///a.ts", "code")] })).1 =
        .error (.typeError ("Unable to handle the given specifier: " ++ "file:///a.ts")) :=
  ⟨(c1_memory_sources_resolution testEnv
      { testArgs with sources := some [("file:///a.ts", "code")] }
      [("file:///a.ts", "code")] rfl).1,
    (c1_memory_sources_resolution testEnv
      { testArgs with
        sources := some [("file:///a.ts", "code")],
        rootSpecifier := "file:///missing.ts" }
      [("file:///a.ts", "code")] rfl).2.2
      "file:///missing.ts" Option.none [] rfl rfl
      ⟨"file:///missing.ts", Or.inl rfl, rfl⟩,
    (c1_memory_sources_resolution
      { testEnv with deps := fun _ => ["file:///dep.ts"] }
      { testArgs with sources := some [("file:///a.ts", "code")] }
      [("file:///a.ts", "code")] rfl).2.2
      "file:///a.ts" Option.none [] rfl rfl
      ⟨"file:///dep.ts", Or.inr (List.mem_cons_self _ _), rfl⟩⟩

/-- C1 counterexample: a request with `sources` present, `importMapPath`
set and `importMap` absent does perform an external fetch — the import
map is fetched through the file fetcher — for a specifier that is not in
the sources mapping, refuting the claim that no external fetch for a
specifier outside the mapping ever occurs. -/
theorem c1_external_fetch_despite_sources_counterexample :
    Ev.fetchExternal "file:///im.json" ∈
      (opEmit true testEnv
        (.ok { testArgs with
          sources := some [("file:///a.ts", "code")],
          importMapPath := some "file:///im.json" })).2
    ∧ alookup [("file:///a.ts", "code")] "file:///im.json" = Option.none := by
  decide

end RuntimeCompiler
